import Mathlib

/-
  Verification of the klbfw-rs client library core against its specification.

  The development shallowly embeds the Rust sources:
    - src/response.rs : the JSON response envelope (`Response`), path lookup,
      serde-style serialization and deserialization;
    - src/token.rs    : the OAuth2 `Token` record;
    - src/rest.rs     : `RestContext::do_request` / `renew_token`, modelled as a
      fuel-indexed interpreter over an explicit script of server responses,
      producing the request log as an observable trace;
    - src/apikey.rs   : `ApiKey::generate_signature`, with SHA-256 and the
      Ed25519 primitive kept abstract (boundary interfaces) and the
      canonicalization (filter `_sign`, stable sort by key,
      `application/x-www-form-urlencoded` serialization, NUL separators) and
      base64url-unpadded encoding embedded concretely;
    - src/upload.rs   : `UploadInfo::prepare` / `do_upload` strategy selection,
      and the single-PUT / block / S3 upload strategies as trace-producing
      functions over a byte-list reader.

  JSON values (serde_json::Value) are modelled by the inductive `J`; numbers
  are modelled as integers, which covers every number the claims touch.
  Machine integers (i64, i32) are modelled as `Int` together with explicit
  range conditions where serde performs a range check.
-/

namespace Klbfw

/-- JSON values, modelling `serde_json::Value`.  Objects are association
lists; `serde_json` maps are keyed lookups only, so association-list lookup
is an adequate model.  Numbers are modelled as integers. -/
inductive J where
  | null : J
  | bool (b : Bool) : J
  | num (n : Int) : J
  | str (s : String) : J
  | arr (xs : List J) : J
  | obj (fields : List (String × J)) : J

/-- First-match keyed lookup in a JSON object field list
(`serde_json::Map::get`). -/
def jlookup (k : String) : List (String × J) → Option J
  | [] => none
  | (k', v) :: rest => if k' = k then some v else jlookup k rest

/-- `Value::as_str`. -/
def J.asStr : J → Option String
  | .str s => some s
  | _ => none

/-- `Value::as_f64` restricted to the integral numbers the model carries,
followed by the `as i64` cast done at the use sites. -/
def J.asNum : J → Option Int
  | .num n => some n
  | _ => none

/-- `Value::as_object`. -/
def J.asObj : J → Option (List (String × J))
  | .obj fs => some fs
  | _ => none

/-- The response envelope, translated field for field from `Response` in
src/response.rs.  `request_id` mirrors the `#[serde(skip)]` field holding the
`X-Request-Id` header. -/
structure Response where
  result : String
  data : Option J := none
  error : Option String := none
  code : Option Int := none
  extra : Option String := none
  token : Option String := none
  paging : Option J := none
  job : Option J := none
  time : Option J := none
  access : Option J := none
  exception : Option String := none
  redirect_url : Option String := none
  redirect_code : Option Int := none
  request_id : Option String := none

/-- `str::parse::<usize>` as used by `Response::get` on array segments: an
optional leading `+`, then one or more ASCII digits and nothing else.
Overflow is not modelled; an overflowing numeral fails to parse in Rust and
here yields an index that is necessarily out of bounds, giving the same
observable absent result. -/
def parseUsize (s : String) : Option Nat :=
  let cs := match s.data with
    | '+' :: rest => rest
    | cs => cs
  if cs = [] then none
  else if cs.all (fun c => c.isDigit) then
    some (cs.foldl (fun acc c => acc * 10 + (c.toNat - 48)) 0)
  else none

/-- The descent loop of `Response::get` (src/response.rs lines 148-157):
object nodes descend by key, array nodes by parsed index, anything else is
absent. -/
def getLoop : J → List String → Option J
  | j, [] => some j
  | .obj fields, p :: ps =>
    match jlookup p fields with
    | some v => getLoop v ps
    | none => none
  | .arr xs, p :: ps =>
    match parseUsize p with
    | some i =>
      match xs.get? i with
      | some v => getLoop v ps
      | none => none
    | none => none
  | _, _ :: _ => none

/-- `Response::get` (src/response.rs lines 143-160): split the path on `/`,
drop empty segments, then descend from `data`. -/
def Response.get (r : Response) (path : String) : Option J :=
  let parts := (path.splitOn "/").filter (fun s => ¬(s = ""))
  match r.data with
  | none => none
  | some d => getLoop d parts

/-- One descent step as the specification words it: at an object descend by
the segment as a key, at an array parse the segment as a non-negative integer
and index, at any other node the result is absent. -/
def specStep (seg : String) (j : J) : Option J :=
  match j with
  | .obj fields => jlookup seg fields
  | .arr xs => (parseUsize seg).bind (fun i => xs.get? i)
  | _ => none

/-- The specification reading of `get`: successive object-key or array-index
lookups over the non-empty path segments, starting from `data`; absent
propagates. -/
def specGet (r : Response) (path : String) : Option J :=
  ((path.splitOn "/").filter (fun s => ¬(s = ""))).foldl
    (fun acc seg => acc.bind (specStep seg)) r.data

theorem foldl_bind_none (parts : List String) :
    parts.foldl (fun acc seg => acc.bind (specStep seg)) none = none := by
  induction parts with
  | nil => rfl
  | cons q qs ih => simpa [Option.bind] using ih

theorem getLoop_cons (p : String) (ps : List String) (j : J) :
    getLoop j (p :: ps) =
      match specStep p j with
      | some v => getLoop v ps
      | none => none := by
  cases j with
  | obj fields => simp only [getLoop, specStep]
  | arr xs =>
    cases h : parseUsize p with
    | none => simp [getLoop, specStep, h, Option.bind]
    | some i => cases hx : xs.get? i <;> simp [getLoop, specStep, h, hx, Option.bind]
  | null => simp [getLoop, specStep]
  | bool b => simp [getLoop, specStep]
  | num n => simp [getLoop, specStep]
  | str s => simp [getLoop, specStep]

theorem getLoop_eq_foldl (parts : List String) (j : J) :
    getLoop j parts = parts.foldl (fun acc seg => acc.bind (specStep seg)) (some j) := by
  induction parts generalizing j with
  | nil => simp [getLoop]
  | cons p ps ih =>
    rw [getLoop_cons]
    have hfold : (p :: ps).foldl (fun acc seg => acc.bind (specStep seg)) (some j)
        = ps.foldl (fun acc seg => acc.bind (specStep seg)) (specStep p j) := by
      simp [Option.bind]
    rw [hfold]
    cases specStep p j with
    | none => exact (foldl_bind_none ps).symm
    | some v => exact ih v

/-- C7: for every envelope and slash-separated path, `Response::get` returns
exactly the node reached by successively descending from `data` with
object-key or array-index lookups, skipping empty segments; absent `data`, a
failed key lookup, a failed non-negative-integer parse, a failed index, or a
scalar node all yield absent. -/
theorem C7_get_path (r : Response) (path : String) :
    Response.get r path = specGet r path := by
  unfold Response.get specGet
  cases r.data with
  | none => exact (foldl_bind_none _).symm
  | some d => exact getLoop_eq_foldl _ d

/-! Serde-style serialization of `Response` (src/response.rs lines 9-65).
Every optional field carries `#[serde(skip_serializing_if = "Option::is_none")]`,
so a `None` field is simply absent from the emitted object, and `request_id`
carries `#[serde(skip)]`, so it is never emitted and deserializes to `None`. -/

/-- One optional serialized field: absent when the value is `None`. -/
def optField (k : String) : Option J → List (String × J)
  | none => []
  | some v => [(k, v)]

/-- The serialized field list of a `Response`, in struct declaration order. -/
def serFields (r : Response) : List (String × J) :=
  ("result", J.str r.result) ::
    (optField "data" r.data ++
      (optField "error" (r.error.map J.str) ++
        (optField "code" (r.code.map J.num) ++
          (optField "extra" (r.extra.map J.str) ++
            (optField "token" (r.token.map J.str) ++
              (optField "paging" r.paging ++
                (optField "job" r.job ++
                  (optField "time" r.time ++
                    (optField "access" r.access ++
                      (optField "exception" (r.exception.map J.str) ++
                        (optField "redirect_url" (r.redirect_url.map J.str) ++
                          optField "redirect_code" (r.redirect_code.map J.num))))))))))))

/-- Serialization of a `Response` envelope. -/
def Response.toJson (r : Response) : J := .obj (serFields r)

/-- Serde deserialization of an `Option<String>` struct field: absent or JSON
`null` give `None`, a string gives `Some`, anything else is a decode error. -/
def decOptStr : Option J → Option (Option String)
  | none => some none
  | some .null => some none
  | some (.str s) => some (some s)
  | some _ => none

/-- Serde deserialization of an `Option<i32>` struct field, including the
i32 range check serde performs on JSON integers. -/
def decOptI32 : Option J → Option (Option Int)
  | none => some none
  | some .null => some none
  | some (.num n) => if -2147483648 ≤ n ∧ n ≤ 2147483647 then some (some n) else none
  | some _ => none

/-- Serde deserialization of an `Option<serde_json::Value>` struct field.
Any present value other than JSON `null` is kept; JSON `null` deserializes to
`None`, because the deserializer for `Option` consumes it.  This is the well-known
asymmetry that makes `Some(Value::Null)` not round-trip. -/
def decOptVal : Option J → Option (Option J)
  | none => some none
  | some .null => some none
  | some v => some (some v)

/-- Serde deserialization of a `Response` envelope: `result` is required and
must be a string, every other serialized field is optional with the decoders
above, unknown fields are ignored, and `request_id` (`#[serde(skip)]`) is
always `None` after deserialization. -/
def Response.fromJson : J → Option Response
  | .obj fs => do
    let rv ← jlookup "result" fs
    let result ← rv.asStr
    let data ← decOptVal (jlookup "data" fs)
    let error ← decOptStr (jlookup "error" fs)
    let code ← decOptI32 (jlookup "code" fs)
    let extra ← decOptStr (jlookup "extra" fs)
    let token ← decOptStr (jlookup "token" fs)
    let paging ← decOptVal (jlookup "paging" fs)
    let job ← decOptVal (jlookup "job" fs)
    let time ← decOptVal (jlookup "time" fs)
    let access ← decOptVal (jlookup "access" fs)
    let exception ← decOptStr (jlookup "exception" fs)
    let redirect_url ← decOptStr (jlookup "redirect_url" fs)
    let redirect_code ← decOptI32 (jlookup "redirect_code" fs)
    pure { result := result, data := data, error := error, code := code, extra := extra,
           token := token, paging := paging, job := job, time := time, access := access,
           exception := exception, redirect_url := redirect_url,
           redirect_code := redirect_code, request_id := none }
  | _ => none

theorem jlookup_cons_ne (k' k : String) (h : ¬ k' = k) {v : J} {l : List (String × J)} :
    jlookup k ((k', v) :: l) = jlookup k l := by
  simp [jlookup, h]

theorem jlookup_optField_ne (k' k : String) (h : ¬ k' = k) {x : Option J}
    {l : List (String × J)} :
    jlookup k (optField k' x ++ l) = jlookup k l := by
  cases x <;> simp [optField, jlookup, h]

theorem jlookup_optField_self (k : String) {x : Option J} {l : List (String × J)}
    (h : jlookup k l = none) :
    jlookup k (optField k x ++ l) = x := by
  cases x <;> simp [optField, jlookup, h]

theorem jlookup_optField_last (k : String) (x : Option J) :
    jlookup k (optField k x) = x := by
  cases x <;> simp [optField, jlookup]

theorem jlookup_optField_last_ne (k' k : String) (h : ¬ k' = k) {x : Option J} :
    jlookup k (optField k' x) = none := by
  cases x <;> simp [optField, jlookup, h]

theorem jlookup_ser_result (r : Response) :
    jlookup "result" (serFields r) = some (J.str r.result) := by
  simp [serFields, jlookup]

theorem jlookup_ser_data (r : Response) : jlookup "data" (serFields r) = r.data := by
  unfold serFields
  rw [jlookup_cons_ne "result" "data" (by decide)]
  refine jlookup_optField_self "data" ?_
  rw [jlookup_optField_ne "error" "data" (by decide),
    jlookup_optField_ne "code" "data" (by decide),
    jlookup_optField_ne "extra" "data" (by decide),
    jlookup_optField_ne "token" "data" (by decide),
    jlookup_optField_ne "paging" "data" (by decide),
    jlookup_optField_ne "job" "data" (by decide),
    jlookup_optField_ne "time" "data" (by decide),
    jlookup_optField_ne "access" "data" (by decide),
    jlookup_optField_ne "exception" "data" (by decide),
    jlookup_optField_ne "redirect_url" "data" (by decide)]
  exact jlookup_optField_last_ne "redirect_code" "data" (by decide)

theorem jlookup_ser_error (r : Response) :
    jlookup "error" (serFields r) = r.error.map J.str := by
  unfold serFields
  rw [jlookup_cons_ne "result" "error" (by decide),
    jlookup_optField_ne "data" "error" (by decide)]
  refine jlookup_optField_self "error" ?_
  rw [jlookup_optField_ne "code" "error" (by decide),
    jlookup_optField_ne "extra" "error" (by decide),
    jlookup_optField_ne "token" "error" (by decide),
    jlookup_optField_ne "paging" "error" (by decide),
    jlookup_optField_ne "job" "error" (by decide),
    jlookup_optField_ne "time" "error" (by decide),
    jlookup_optField_ne "access" "error" (by decide),
    jlookup_optField_ne "exception" "error" (by decide),
    jlookup_optField_ne "redirect_url" "error" (by decide)]
  exact jlookup_optField_last_ne "redirect_code" "error" (by decide)

theorem jlookup_ser_code (r : Response) :
    jlookup "code" (serFields r) = r.code.map J.num := by
  unfold serFields
  rw [jlookup_cons_ne "result" "code" (by decide),
    jlookup_optField_ne "data" "code" (by decide),
    jlookup_optField_ne "error" "code" (by decide)]
  refine jlookup_optField_self "code" ?_
  rw [jlookup_optField_ne "extra" "code" (by decide),
    jlookup_optField_ne "token" "code" (by decide),
    jlookup_optField_ne "paging" "code" (by decide),
    jlookup_optField_ne "job" "code" (by decide),
    jlookup_optField_ne "time" "code" (by decide),
    jlookup_optField_ne "access" "code" (by decide),
    jlookup_optField_ne "exception" "code" (by decide),
    jlookup_optField_ne "redirect_url" "code" (by decide)]
  exact jlookup_optField_last_ne "redirect_code" "code" (by decide)

theorem jlookup_ser_extra (r : Response) :
    jlookup "extra" (serFields r) = r.extra.map J.str := by
  unfold serFields
  rw [jlookup_cons_ne "result" "extra" (by decide),
    jlookup_optField_ne "data" "extra" (by decide),
    jlookup_optField_ne "error" "extra" (by decide),
    jlookup_optField_ne "code" "extra" (by decide)]
  refine jlookup_optField_self "extra" ?_
  rw [jlookup_optField_ne "token" "extra" (by decide),
    jlookup_optField_ne "paging" "extra" (by decide),
    jlookup_optField_ne "job" "extra" (by decide),
    jlookup_optField_ne "time" "extra" (by decide),
    jlookup_optField_ne "access" "extra" (by decide),
    jlookup_optField_ne "exception" "extra" (by decide),
    jlookup_optField_ne "redirect_url" "extra" (by decide)]
  exact jlookup_optField_last_ne "redirect_code" "extra" (by decide)

theorem jlookup_ser_token (r : Response) :
    jlookup "token" (serFields r) = r.token.map J.str := by
  unfold serFields
  rw [jlookup_cons_ne "result" "token" (by decide),
    jlookup_optField_ne "data" "token" (by decide),
    jlookup_optField_ne "error" "token" (by decide),
    jlookup_optField_ne "code" "token" (by decide),
    jlookup_optField_ne "extra" "token" (by decide)]
  refine jlookup_optField_self "token" ?_
  rw [jlookup_optField_ne "paging" "token" (by decide),
    jlookup_optField_ne "job" "token" (by decide),
    jlookup_optField_ne "time" "token" (by decide),
    jlookup_optField_ne "access" "token" (by decide),
    jlookup_optField_ne "exception" "token" (by decide),
    jlookup_optField_ne "redirect_url" "token" (by decide)]
  exact jlookup_optField_last_ne "redirect_code" "token" (by decide)

theorem jlookup_ser_paging (r : Response) :
    jlookup "paging" (serFields r) = r.paging := by
  unfold serFields
  rw [jlookup_cons_ne "result" "paging" (by decide),
    jlookup_optField_ne "data" "paging" (by decide),
    jlookup_optField_ne "error" "paging" (by decide),
    jlookup_optField_ne "code" "paging" (by decide),
    jlookup_optField_ne "extra" "paging" (by decide),
    jlookup_optField_ne "token" "paging" (by decide)]
  refine jlookup_optField_self "paging" ?_
  rw [jlookup_optField_ne "job" "paging" (by decide),
    jlookup_optField_ne "time" "paging" (by decide),
    jlookup_optField_ne "access" "paging" (by decide),
    jlookup_optField_ne "exception" "paging" (by decide),
    jlookup_optField_ne "redirect_url" "paging" (by decide)]
  exact jlookup_optField_last_ne "redirect_code" "paging" (by decide)

theorem jlookup_ser_job (r : Response) :
    jlookup "job" (serFields r) = r.job := by
  unfold serFields
  rw [jlookup_cons_ne "result" "job" (by decide),
    jlookup_optField_ne "data" "job" (by decide),
    jlookup_optField_ne "error" "job" (by decide),
    jlookup_optField_ne "code" "job" (by decide),
    jlookup_optField_ne "extra" "job" (by decide),
    jlookup_optField_ne "token" "job" (by decide),
    jlookup_optField_ne "paging" "job" (by decide)]
  refine jlookup_optField_self "job" ?_
  rw [jlookup_optField_ne "time" "job" (by decide),
    jlookup_optField_ne "access" "job" (by decide),
    jlookup_optField_ne "exception" "job" (by decide),
    jlookup_optField_ne "redirect_url" "job" (by decide)]
  exact jlookup_optField_last_ne "redirect_code" "job" (by decide)

theorem jlookup_ser_time (r : Response) :
    jlookup "time" (serFields r) = r.time := by
  unfold serFields
  rw [jlookup_cons_ne "result" "time" (by decide),
    jlookup_optField_ne "data" "time" (by decide),
    jlookup_optField_ne "error" "time" (by decide),
    jlookup_optField_ne "code" "time" (by decide),
    jlookup_optField_ne "extra" "time" (by decide),
    jlookup_optField_ne "token" "time" (by decide),
    jlookup_optField_ne "paging" "time" (by decide),
    jlookup_optField_ne "job" "time" (by decide)]
  refine jlookup_optField_self "time" ?_
  rw [jlookup_optField_ne "access" "time" (by decide),
    jlookup_optField_ne "exception" "time" (by decide),
    jlookup_optField_ne "redirect_url" "time" (by decide)]
  exact jlookup_optField_last_ne "redirect_code" "time" (by decide)

theorem jlookup_ser_access (r : Response) :
    jlookup "access" (serFields r) = r.access := by
  unfold serFields
  rw [jlookup_cons_ne "result" "access" (by decide),
    jlookup_optField_ne "data" "access" (by decide),
    jlookup_optField_ne "error" "access" (by decide),
    jlookup_optField_ne "code" "access" (by decide),
    jlookup_optField_ne "extra" "access" (by decide),
    jlookup_optField_ne "token" "access" (by decide),
    jlookup_optField_ne "paging" "access" (by decide),
    jlookup_optField_ne "job" "access" (by decide),
    jlookup_optField_ne "time" "access" (by decide)]
  refine jlookup_optField_self "access" ?_
  rw [jlookup_optField_ne "exception" "access" (by decide),
    jlookup_optField_ne "redirect_url" "access" (by decide)]
  exact jlookup_optField_last_ne "redirect_code" "access" (by decide)

theorem jlookup_ser_exception (r : Response) :
    jlookup "exception" (serFields r) = r.exception.map J.str := by
  unfold serFields
  rw [jlookup_cons_ne "result" "exception" (by decide),
    jlookup_optField_ne "data" "exception" (by decide),
    jlookup_optField_ne "error" "exception" (by decide),
    jlookup_optField_ne "code" "exception" (by decide),
    jlookup_optField_ne "extra" "exception" (by decide),
    jlookup_optField_ne "token" "exception" (by decide),
    jlookup_optField_ne "paging" "exception" (by decide),
    jlookup_optField_ne "job" "exception" (by decide),
    jlookup_optField_ne "time" "exception" (by decide),
    jlookup_optField_ne "access" "exception" (by decide)]
  refine jlookup_optField_self "exception" ?_
  rw [jlookup_optField_ne "redirect_url" "exception" (by decide)]
  exact jlookup_optField_last_ne "redirect_code" "exception" (by decide)

theorem jlookup_ser_redirect_url (r : Response) :
    jlookup "redirect_url" (serFields r) = r.redirect_url.map J.str := by
  unfold serFields
  rw [jlookup_cons_ne "result" "redirect_url" (by decide),
    jlookup_optField_ne "data" "redirect_url" (by decide),
    jlookup_optField_ne "error" "redirect_url" (by decide),
    jlookup_optField_ne "code" "redirect_url" (by decide),
    jlookup_optField_ne "extra" "redirect_url" (by decide),
    jlookup_optField_ne "token" "redirect_url" (by decide),
    jlookup_optField_ne "paging" "redirect_url" (by decide),
    jlookup_optField_ne "job" "redirect_url" (by decide),
    jlookup_optField_ne "time" "redirect_url" (by decide),
    jlookup_optField_ne "access" "redirect_url" (by decide),
    jlookup_optField_ne "exception" "redirect_url" (by decide)]
  refine jlookup_optField_self "redirect_url" ?_
  exact jlookup_optField_last_ne "redirect_code" "redirect_url" (by decide)

theorem jlookup_ser_redirect_code (r : Response) :
    jlookup "redirect_code" (serFields r) = r.redirect_code.map J.num := by
  unfold serFields
  rw [jlookup_cons_ne "result" "redirect_code" (by decide),
    jlookup_optField_ne "data" "redirect_code" (by decide),
    jlookup_optField_ne "error" "redirect_code" (by decide),
    jlookup_optField_ne "code" "redirect_code" (by decide),
    jlookup_optField_ne "extra" "redirect_code" (by decide),
    jlookup_optField_ne "token" "redirect_code" (by decide),
    jlookup_optField_ne "paging" "redirect_code" (by decide),
    jlookup_optField_ne "job" "redirect_code" (by decide),
    jlookup_optField_ne "time" "redirect_code" (by decide),
    jlookup_optField_ne "access" "redirect_code" (by decide),
    jlookup_optField_ne "exception" "redirect_code" (by decide),
    jlookup_optField_ne "redirect_url" "redirect_code" (by decide)]
  exact jlookup_optField_last "redirect_code" _

theorem decOptStr_map (x : Option String) : decOptStr (x.map J.str) = some x := by
  cases x <;> rfl

theorem decOptI32_map (x : Option Int)
    (h : ∀ n, x = some n → -2147483648 ≤ n ∧ n ≤ 2147483647) :
    decOptI32 (x.map J.num) = some x := by
  cases x with
  | none => rfl
  | some n => simp [decOptI32, (h n rfl).1, (h n rfl).2]

/-- Test for the one value the `Option<Value>` decoders cannot round-trip. -/
def isNullOpt : Option J → Bool
  | some .null => true
  | _ => false

theorem decOptVal_of_ne_null (x : Option J) (h : isNullOpt x = false) :
    decOptVal x = some x := by
  cases x with
  | none => rfl
  | some v => cases v <;> simp_all [isNullOpt, decOptVal]

/-- i32 range predicate for an optional integer field, mirroring the Rust
`Option<i32>` type invariant. -/
def inI32 : Option Int → Prop
  | none => True
  | some n => -2147483648 ≤ n ∧ n ≤ 2147483647

instance (x : Option Int) : Decidable (inI32 x) := by
  cases x <;> simp [inI32] <;> infer_instance

/-- A `Response` whose JSON-subtree fields hold no bare JSON `null` and whose
integer fields are within i32 range (the Rust types guarantee the latter). -/
def roundSafe (r : Response) : Prop :=
  isNullOpt r.data = false ∧ isNullOpt r.paging = false ∧ isNullOpt r.job = false ∧
    isNullOpt r.time = false ∧ isNullOpt r.access = false ∧ inI32 r.code ∧
    inI32 r.redirect_code

instance (r : Response) : Decidable (roundSafe r) := by
  unfold roundSafe
  infer_instance

/-- Concrete envelope refuting C8 as stated: `data` is present and holds JSON
`null`. -/
def cex8 : Response := { result := "success", data := some J.null }

/-- C8 counterexample: serializing `cex8` emits `"data": null`, and
deserializing that yields an envelope whose `data` is absent, so the round
trip does not preserve the present `data` field; the claimed identity (all
fields preserved except `request_id`) fails. -/
theorem C8_counterexample :
    Response.fromJson (Response.toJson cex8) = some { cex8 with data := none } ∧
    ¬ Response.fromJson (Response.toJson cex8) = some { cex8 with request_id := none } := by
  refine ⟨rfl, ?_⟩
  intro h
  rw [show Response.fromJson (Response.toJson cex8) = some { cex8 with data := none } from rfl]
    at h
  simp [cex8] at h

/-- C8 (amended): serializing and then deserializing an envelope preserves
every present and every absent field except `request_id`, which is never
emitted and is absent after deserialization — provided the five
JSON-subtree fields (`data`, `paging`, `job`, `time`, `access`) do not hold a
present bare JSON `null` (such a value serializes to `null` and deserializes
to absent, as the counterexample shows) and the two integer fields are in i32
range, as their Rust types guarantee. -/
theorem C8_roundtrip (r : Response) (h : roundSafe r) :
    Response.fromJson (Response.toJson r) = some { r with request_id := none } := by
  obtain ⟨h1, h2, h3, h4, h5, h6, h7⟩ := h
  have hc : ∀ n, r.code = some n → -2147483648 ≤ n ∧ n ≤ 2147483647 := by
    intro n hn
    rw [hn] at h6
    exact h6
  have hrc : ∀ n, r.redirect_code = some n → -2147483648 ≤ n ∧ n ≤ 2147483647 := by
    intro n hn
    rw [hn] at h7
    exact h7
  show Response.fromJson (J.obj (serFields r)) = _
  simp only [Response.fromJson, jlookup_ser_result, jlookup_ser_data, jlookup_ser_error,
    jlookup_ser_code, jlookup_ser_extra, jlookup_ser_token, jlookup_ser_paging,
    jlookup_ser_job, jlookup_ser_time, jlookup_ser_access, jlookup_ser_exception,
    jlookup_ser_redirect_url, jlookup_ser_redirect_code,
    decOptVal_of_ne_null r.data h1, decOptVal_of_ne_null r.paging h2,
    decOptVal_of_ne_null r.job h3, decOptVal_of_ne_null r.time h4,
    decOptVal_of_ne_null r.access h5, decOptStr_map, decOptI32_map r.code hc,
    decOptI32_map r.redirect_code hrc, J.asStr, Option.bind_some, Option.some_bind]
  rfl

/-- Witness for C8 (amended) at a fully populated concrete envelope. -/
theorem C8_witness :
    roundSafe { result := "error", data := some (J.str "d"), error := some "boom",
                code := some 403, extra := some "x", token := some "t",
                paging := some (J.num 1), job := some (J.num 2), time := some (J.num 3),
                access := some (J.num 4), exception := some "E",
                redirect_url := some "u", redirect_code := some 302,
                request_id := some "rid" } ∧
    Response.fromJson (Response.toJson
      { result := "error", data := some (J.str "d"), error := some "boom",
        code := some 403, extra := some "x", token := some "t",
        paging := some (J.num 1), job := some (J.num 2), time := some (J.num 3),
        access := some (J.num 4), exception := some "E",
        redirect_url := some "u", redirect_code := some 302,
        request_id := some "rid" }) =
      some { result := "error", data := some (J.str "d"), error := some "boom",
             code := some 403, extra := some "x", token := some "t",
             paging := some (J.num 1), job := some (J.num 2), time := some (J.num 3),
             access := some (J.num 4), exception := some "E",
             redirect_url := some "u", redirect_code := some 302,
             request_id := none } :=
  ⟨by decide, C8_roundtrip _ (by decide)⟩

/-! Request signing (`ApiKey::generate_signature`, src/apikey.rs lines 82-125).
Strings are modelled at the UTF-8 byte level (`List Nat`); SHA-256 and the
Ed25519 signing primitive are abstract boundary functions, while the
canonicalization (filter `_sign`, stable sort by key, form-urlencoded
serialization, NUL separators) and the base64url-unpadded encoding are
embedded concretely. -/

/-- Bytes the WHATWG `application/x-www-form-urlencoded` serializer leaves
unescaped: ASCII alphanumerics and `*`, `-`, `.`, `_` (as implemented by the
`form_urlencoded` crate used in src/apikey.rs line 104). -/
def formSafe (b : Nat) : Bool :=
  (48 ≤ b ∧ b ≤ 57) ∨ (65 ≤ b ∧ b ≤ 90) ∨ (97 ≤ b ∧ b ≤ 122) ∨
    b = 42 ∨ b = 45 ∨ b = 46 ∨ b = 95

/-- Uppercase hexadecimal digit byte. -/
def hexDigit (n : Nat) : Nat := if n < 10 then 48 + n else 55 + n

/-- Percent-encoding of one byte under the form-urlencoded rules: safe bytes
pass through, space becomes `+`, everything else becomes `%XX` uppercase. -/
def urlEncodeByte (b : Nat) : List Nat :=
  if formSafe b then [b]
  else if b = 32 then [43]
  else [37, hexDigit (b / 16), hexDigit (b % 16)]

/-- Form-urlencoded encoding of a byte string. -/
def urlEncodeBytes (s : List Nat) : List Nat := (s.map urlEncodeByte).flatten

/-- One `key=value` pair (61 is `=`). -/
def encodePair (p : List Nat × List Nat) : List Nat :=
  urlEncodeBytes p.1 ++ [61] ++ urlEncodeBytes p.2

/-- `form_urlencoded::Serializer::extend_pairs(..).finish()`: pairs joined
with `&` (38), the empty pair list giving the empty string. -/
def serializePairs : List (List Nat × List Nat) → List Nat
  | [] => []
  | [p] => encodePair p
  | p :: q :: rest => encodePair p ++ [38] ++ serializePairs (q :: rest)

/-- Comparison of query pairs by key only, byte-lexicographically, as
`params.sort_by(|a, b| a.0.cmp(&b.0))` does (Rust `str` comparison is
byte-lexicographic on UTF-8, which agrees with the lexicographic order on
byte lists). -/
def keyLe (p q : List Nat × List Nat) : Prop := p.1 ≤ q.1

/-- Strict version of `keyLe`, used to show sorted orders are unique once
keys are distinct. -/
def keyLt (p q : List Nat × List Nat) : Prop := p.1 < q.1

instance : DecidableRel keyLe := fun p q => inferInstanceAs (Decidable (p.1 ≤ q.1))

instance : IsTotal (List Nat × List Nat) keyLe := ⟨fun p q => le_total p.1 q.1⟩

instance : IsTrans (List Nat × List Nat) keyLe := ⟨fun _ _ _ h1 h2 => le_trans h1 h2⟩

instance : IsAntisymm (List Nat × List Nat) keyLt :=
  ⟨fun p _ h1 h2 => absurd (lt_trans h1 h2) (lt_irrefl p.1)⟩

/-- The stable sort of the query pairs by key (`sort_by` in Rust is a stable
sort, as is insertion sort). -/
def sortPairs (ps : List (List Nat × List Nat)) : List (List Nat × List Nat) :=
  List.insertionSort keyLe ps

/-- The bytes of the reserved query key `_sign`. -/
def signKey : List Nat := [95, 115, 105, 103, 110]

/-- The base64url alphabet. -/
def b64urlChar (n : Nat) : Char :=
  if n < 26 then Char.ofNat (65 + n)
  else if n < 52 then Char.ofNat (97 + (n - 26))
  else if n < 62 then Char.ofNat (48 + (n - 52))
  else if n = 62 then '-'
  else '_'

/-- Base64url encoding without padding (`URL_SAFE_NO_PAD`). -/
def b64urlNoPad : List Nat → String
  | [] => ""
  | [b1] => String.mk [b64urlChar (b1 / 4), b64urlChar (b1 % 4 * 16)]
  | [b1, b2] => String.mk [b64urlChar (b1 / 4), b64urlChar (b1 % 4 * 16 + b2 / 16),
      b64urlChar (b2 % 16 * 4)]
  | b1 :: b2 :: b3 :: rest =>
    String.mk [b64urlChar (b1 / 4), b64urlChar (b1 % 4 * 16 + b2 / 16),
      b64urlChar (b2 % 16 * 4 + b3 / 64), b64urlChar (b3 % 64)] ++ b64urlNoPad rest

/-- `ApiKey::generate_signature`, translated step for step: hash the body,
drop the `_sign` pair, stable-sort by key, form-urlencode, join the parts
with NUL separators, Ed25519-sign, base64url-encode without padding. -/
def generate_signature (sha256 edSign : List Nat → List Nat)
    (method path : List Nat) (query : List (List Nat × List Nat)) (body : List Nat) :
    String :=
  let bodyHash := sha256 body
  let params := query.filter (fun kv => ¬ kv.1 = signKey)
  let sortedParams := sortPairs params
  let queryString := serializePairs sortedParams
  let signString := method ++ [0] ++ path ++ [0] ++ queryString ++ [0] ++ bodyHash
  b64urlNoPad (edSign signString)

/-- The query serialization as the specification words it: all query pairs
except the key `_sign`, sorted lexicographically by key, form-urlencoded. -/
def specSortedQuery (query : List (List Nat × List Nat)) : List Nat :=
  serializePairs (sortPairs (query.filter (fun kv => ¬ kv.1 = signKey)))

/-- The specification formula: the base64url-unpadded Ed25519 signature of
`method || 0 || path || 0 || sortedQuery || 0 || SHA256(body)`. -/
def specSignature (sha256 edSign : List Nat → List Nat)
    (method path : List Nat) (query : List (List Nat × List Nat)) (body : List Nat) :
    String :=
  b64urlNoPad (edSign
    (method ++ [0] ++ path ++ [0] ++ specSortedQuery query ++ [0] ++ sha256 body))

theorem pairwise_and_of {α : Type} {R S : α → α → Prop} :
    ∀ {l : List α}, l.Pairwise R → l.Pairwise S →
      l.Pairwise fun a b => R a b ∧ S a b := by
  intro l h1 h2
  induction l with
  | nil => exact List.Pairwise.nil
  | cons a t ih =>
    cases h1 with
    | cons ha1 ht1 =>
      cases h2 with
      | cons ha2 ht2 =>
        exact List.Pairwise.cons (fun b hb => ⟨ha1 b hb, ha2 b hb⟩) (ih ht1 ht2)

/-- With pairwise-distinct keys the sorted pair list is independent of the
input order, so the signature does not depend on the hash-map iteration
order. -/
theorem sortPairs_eq_of_perm (ps qs : List (List Nat × List Nat)) (hperm : ps.Perm qs)
    (hnd : (ps.map Prod.fst).Nodup) : sortPairs ps = sortPairs qs := by
  have p1 : (sortPairs ps).Perm ps := List.perm_insertionSort keyLe ps
  have p2 : (sortPairs qs).Perm qs := List.perm_insertionSort keyLe qs
  have pp : (sortPairs ps).Perm (sortPairs qs) := p1.trans (hperm.trans p2.symm)
  have s1 : (sortPairs ps).Sorted keyLe := List.sorted_insertionSort keyLe ps
  have s2 : (sortPairs qs).Sorted keyLe := List.sorted_insertionSort keyLe qs
  have nd1 : ((sortPairs ps).map Prod.fst).Nodup := ((p1.map Prod.fst).nodup_iff).mpr hnd
  have nd2 : ((sortPairs qs).map Prod.fst).Nodup :=
    ((pp.map Prod.fst).nodup_iff).mp nd1
  have ne1 : (sortPairs ps).Pairwise (fun a b => ¬ a.1 = b.1) := List.pairwise_map.mp nd1
  have ne2 : (sortPairs qs).Pairwise (fun a b => ¬ a.1 = b.1) := List.pairwise_map.mp nd2
  have lt1 : (sortPairs ps).Sorted keyLt :=
    (pairwise_and_of s1 ne1).imp (fun h => lt_of_le_of_ne h.1 h.2)
  have lt2 : (sortPairs qs).Sorted keyLt :=
    (pairwise_and_of s2 ne2).imp (fun h => lt_of_le_of_ne h.1 h.2)
  exact List.eq_of_perm_of_sorted pp lt1 lt2

/-- C1: for every method, path, query map and body, `generate_signature`
returns the base64url-unpadded Ed25519 signature of
`method || 0 || path || 0 || Q || 0 || SHA256(body)`, where `Q` serializes
all query pairs except `_sign` sorted lexicographically by key.  The query is
quantified over two arbitrary iteration orders of the same map (pairwise
distinct keys, as a `HashMap` guarantees): the output of the code on any iteration
order equals the specification formula on any other. -/
theorem C1_generate_signature (sha256 edSign : List Nat → List Nat)
    (method path body : List Nat) (query query' : List (List Nat × List Nat))
    (hperm : query.Perm query') (hnd : (query.map Prod.fst).Nodup) :
    generate_signature sha256 edSign method path query body =
      specSignature sha256 edSign method path query' body := by
  simp only [generate_signature, specSignature, specSortedQuery]
  have hpf : (query.filter (fun kv => ¬ kv.1 = signKey)).Perm
      (query'.filter (fun kv => ¬ kv.1 = signKey)) := hperm.filter _
  have hndf : ((query.filter (fun kv => ¬ kv.1 = signKey)).map Prod.fst).Nodup :=
    hnd.sublist ((List.filter_sublist query).map Prod.fst)
  rw [sortPairs_eq_of_perm _ _ hpf hndf]

/-- Witness for C1 at a two-pair query given to the code and the
specification in opposite orders. -/
theorem C1_witness :
    ([([97], [49]), ([98], [50])] : List (List Nat × List Nat)).Perm
        [([98], [50]), ([97], [49])] ∧
      (([([97], [49]), ([98], [50])] : List (List Nat × List Nat)).map Prod.fst).Nodup ∧
      generate_signature (fun l => l) (fun l => l) [71, 69, 84] [70, 111]
          [([97], [49]), ([98], [50])] [] =
        specSignature (fun l => l) (fun l => l) [71, 69, 84] [70, 111]
          [([98], [50]), ([97], [49])] [] :=
  ⟨List.Perm.swap _ _ _, by decide,
    C1_generate_signature (fun l => l) (fun l => l) [71, 69, 84] [70, 111] []
      [([97], [49]), ([98], [50])] [([98], [50]), ([97], [49])]
      (List.Perm.swap _ _ _) (by decide)⟩

/-! The request lifecycle (`RestContext::do_request` and
`RestContext::renew_token`, src/rest.rs lines 90-266), modelled as a
fuel-indexed interpreter.  The HTTP transport is replaced by an explicit
script of server responses consumed one per request; the requests sent are
collected in a log, which is the observable trace.  The fuel only bounds the
recursion depth of the model; the Rust recursion itself is unguarded. -/

/-- The OAuth2 token record (src/token.rs).  `client_id` is `#[serde(skip)]`. -/
structure Token where
  access_token : String
  refresh_token : String
  token_type : String
  client_id : String
  expires_in : Int

/-- Serde deserialization of a `Token` from a JSON value: the three string
fields and the `expires_in` integer (i32 range-checked) are required,
`client_id` is skipped and defaults to empty, unknown fields are ignored. -/
def tokenFromJson : J → Option Token
  | .obj fs => do
    let av ← jlookup "access_token" fs
    let access ← av.asStr
    let rv ← jlookup "refresh_token" fs
    let refresh ← rv.asStr
    let tv ← jlookup "token_type" fs
    let ttype ← tv.asStr
    let ev ← jlookup "expires_in" fs
    let expires ← ev.asNum
    if -2147483648 ≤ expires ∧ expires ≤ 2147483647 then
      some { access_token := access, refresh_token := refresh, token_type := ttype,
             client_id := "", expires_in := expires }
    else none
  | _ => none

/-- `Response::apply::<Token>()`: decode `data` as a `Token`; absent `data`
decodes JSON `null`, which fails for a `Token`. -/
def applyToken (e : Response) : Option Token :=
  match e.data with
  | some d => tokenFromJson d
  | none => none

/-- Client configuration (src/client.rs). -/
structure Config where
  scheme : String := "https"
  host : String := "www.atonline.com"
  debug : Bool := false

/-- The REST context (src/rest.rs lines 13-22).  The API key is modelled by
its identifier only; what matters to the request lifecycle is its presence,
which selects signed-parameter auth instead of the bearer header. -/
structure Ctx where
  config : Config := {}
  token : Option Token := none
  api_key : Option String := none

/-- Where the serialized parameter travels, per method (src/rest.rs lines
108-127). -/
inductive ParamSlot where
  | query (p : J)
  | body (p : J)
  | noParams

/-- Parameter placement by method: query for GET/HEAD/OPTIONS, body for
PUT/POST/PATCH, nothing for DELETE, a request-build failure otherwise. -/
def placeParams (method : String) (param : J) : Option ParamSlot :=
  if method = "GET" ∨ method = "HEAD" ∨ method = "OPTIONS" then some (.query param)
  else if method = "PUT" ∨ method = "POST" ∨ method = "PATCH" then some (.body param)
  else if method = "DELETE" then some .noParams
  else none

/-- One request as sent on the wire: endpoint path, method, the bearer
access token of the `Authorization` header when one is attached, and the
parameter placement. -/
structure Req where
  path : String
  method : String
  bearer : Option String
  slot : ParamSlot

/-- One scripted server response: HTTP status, the parse result of the body
as a JSON envelope (`none` models a body that fails to decode), the raw body
text, and the `X-Request-Id` header. -/
structure SResp where
  status : Nat
  envelope : Option Response
  rawBody : String
  reqId : Option String

/-- The error taxonomy of src/error.rs restricted to the variants the
request lifecycle can produce.  `transport` stands for a `reqwest` send
failure (here: the server script is exhausted); `fuel` is a model artifact
marking exhausted recursion depth. -/
inductive Err where
  | api (message : String) (code : Option Int) (reqId : Option String) (envelope : Response)
  | http (status : Nat) (body : String)
  | loginRequired
  | noClientId
  | noRefreshToken
  | requestBuild (method : String)
  | json
  | transport
  | fuel

/-- `RestError::from_response`. -/
def errFromResponse (e : Response) : Err :=
  .api (e.error.getD "unknown error") e.code e.request_id e

/-- The outcome of a `do_request` run: the returned result, the unconsumed
tail of the server script, and the log of requests sent. -/
structure RunOut where
  result : Except Err Response
  remaining : List SResp
  log : List Req

/-- Result dispatch after the expiry check (src/rest.rs lines 217-232):
redirect with the login exception, other redirects and errors as API errors,
anything else returned as success. -/
def dispatch (env : Response) (rest : List SResp) (req : Req) : RunOut :=
  if env.result = "redirect" then
    if env.exception = some "Exception\\Login" then ⟨.error .loginRequired, rest, [req]⟩
    else ⟨.error (errFromResponse env), rest, [req]⟩
  else if env.result = "error" then ⟨.error (errFromResponse env), rest, [req]⟩
  else ⟨.ok env, rest, [req]⟩

/-- The JSON body of the refresh request (src/rest.rs lines 252-256). -/
def refreshParams (t : Token) : J :=
  .obj [("grant_type", .str "refresh_token"), ("client_id", .str t.client_id),
        ("refresh_token", .str t.refresh_token), ("noraw", .str "true")]

/-- `RestContext::do_request` (src/rest.rs lines 90-233) with
`renew_token` (lines 236-266) inlined at its call site: place the
parameters, attach the bearer header when a token but no API key is present,
send, parse (a body that fails to decode raises HTTP for 4xx/5xx statuses
and JSON otherwise), then — when the context holds a token and the envelope
carries `token == "invalid_request_token"` and `extra == "token_expired"` —
refresh via a token-less context, decode the refreshed token from the
refresh envelope, and recurse on a cloned context carrying the refreshed
token.  The receiver is `&self`, so no branch ever writes back into the
context of the caller. -/
def doRequest : Nat → Ctx → String → String → J → List SResp → RunOut
  | 0, _, _, _, _, server => ⟨.error .fuel, server, []⟩
  | fuel+1, ctx, path, method, param, server =>
    match placeParams method param with
    | none => ⟨.error (.requestBuild method), server, []⟩
    | some slot =>
      let bearer := if ctx.api_key.isSome then none
        else ctx.token.map (fun t => t.access_token)
      let req : Req := ⟨path, method, bearer, slot⟩
      match server with
      | [] => ⟨.error .transport, [], [req]⟩
      | sr :: rest =>
        match sr.envelope with
        | none =>
          if (400 ≤ sr.status ∧ sr.status ≤ 499) ∨ (500 ≤ sr.status ∧ sr.status ≤ 599) then
            ⟨.error (.http sr.status sr.rawBody), rest, [req]⟩
          else ⟨.error .json, rest, [req]⟩
        | some env0 =>
          let env := { env0 with request_id := sr.reqId }
          match ctx.token with
          | some t =>
            if env.token = some "invalid_request_token" ∧ env.extra = some "token_expired" then
              if t.client_id = "" then ⟨.error .noClientId, rest, [req]⟩
              else if t.refresh_token = "" then ⟨.error .noRefreshToken, rest, [req]⟩
              else
                let refreshCtx : Ctx := { config := ctx.config, token := none, api_key := none }
                let out1 := doRequest fuel refreshCtx "OAuth2:token" "POST" (refreshParams t) rest
                match out1.result with
                | .error e => ⟨.error e, out1.remaining, req :: out1.log⟩
                | .ok renv =>
                  match applyToken renv with
                  | none => ⟨.error .json, out1.remaining, req :: out1.log⟩
                  | some nt =>
                    let t2 : Token :=
                      { t with
                        access_token := nt.access_token
                        refresh_token := nt.refresh_token
                        expires_in := nt.expires_in }
                    let retryCtx : Ctx := { ctx with token := some t2 }
                    let out2 := doRequest fuel retryCtx path method param out1.remaining
                    ⟨out2.result, out2.remaining, req :: (out1.log ++ out2.log)⟩
            else dispatch env rest req
          | none => dispatch env rest req

/-- The context the caller holds after a `do_request` call.  `do_request` borrows the
context immutably (`&self`, src/rest.rs line 90): the expiry branch works on
`self.token.clone()` (line 199) and `renew_token` mutates only that clone, so
the caller observes no change. -/
def ctxAfterDoRequest (ctx : Ctx) : Ctx := ctx

/-- A JSON object that decodes as a valid refreshed token. -/
def tokenDataJson : J :=
  .obj [("access_token", .str "newacc"), ("refresh_token", .str "newref"),
        ("token_type", .str "Bearer"), ("expires_in", .num 3600)]

/-- An envelope that simultaneously carries the expiry markers and a
decodable token payload. -/
def expiredEnv : Response :=
  { result := "success", data := some tokenDataJson,
    token := some "invalid_request_token", extra := some "token_expired" }

/-- A server response carrying `expiredEnv`: every request answered with it
triggers the expiry branch, and every refresh against it succeeds. -/
def expiredResp : SResp :=
  { status := 200, envelope := some expiredEnv, rawBody := "", reqId := none }

/-- A context holding a token with both a client id and a refresh token. -/
def cexToken : Token :=
  { access_token := "acc", refresh_token := "ref", token_type := "Bearer",
    client_id := "cid", expires_in := 3600 }

def cexCtx : Ctx := { token := some cexToken }

/-- C2: run against a server that answers every request — the original
endpoint and the refresh endpoint alike — with the expiry markers and a
decodable token payload.  Every refresh succeeds, and the code replays the
original request after each one: the log already contains three requests to
the original endpoint (the run only stops because the five-response script
runs out, surfacing a transport failure — with a longer script the recursion
continues without bound).  The claim allows at most two. -/
theorem C2_failing_run :
    (((doRequest 10 cexCtx "Test/Endpoint" "GET" (J.obj [])
        (List.replicate 5 expiredResp)).log.filter
          (fun r => r.path = "Test/Endpoint")).length = 3) ∧
    (doRequest 10 cexCtx "Test/Endpoint" "GET" (J.obj [])
        (List.replicate 5 expiredResp)).result = .error .transport := by
  constructor <;> rfl

/-- A refresh envelope: success whose `data` decodes as a token. -/
def refreshEnv : Response := { result := "success", data := some tokenDataJson }

def refreshOkResp : SResp :=
  { status := 200, envelope := some refreshEnv, rawBody := "", reqId := none }

/-- A plain success envelope with no expiry markers. -/
def finalEnv : Response := { result := "success", data := some (J.str "hello") }

def finalOkResp : SResp :=
  { status := 200, envelope := some finalEnv, rawBody := "", reqId := none }

/-- The token `tokenDataJson` decodes to. -/
def renewedToken : Token :=
  { access_token := "newacc", refresh_token := "newref", token_type := "Bearer",
    client_id := "", expires_in := 3600 }

/-- C3 counterexample: in the expiry-then-refresh-then-success run, the
retried request does carry the refreshed bearer token `newacc` (third log
entry), yet the context owned by the caller still holds the original access token
`acc` afterwards — `do_request` borrows the context immutably and the
renewal mutates `self.token.clone()` — refuting the claim that the in-memory
token of the caller holds the refreshed values. -/
theorem C3_counterexample :
    ((doRequest 10 cexCtx "Test/Endpoint" "GET" (J.obj [])
        [expiredResp, refreshOkResp, finalOkResp]).log.map (fun r => r.bearer)
      = [some "acc", none, some "newacc"]) ∧
    ((ctxAfterDoRequest cexCtx).token.map (fun t => t.access_token) = some "acc") ∧
    ¬ ((ctxAfterDoRequest cexCtx).token.map (fun t => t.access_token) = some "newacc") :=
  ⟨rfl, rfl, by decide⟩

theorem placeParams_post (p : J) : placeParams "POST" p = some (.body p) := rfl

/-- C3 (amended): when the first response carries the expiry markers and the
refresh succeeds, the replayed request is issued by a temporary cloned
context whose token holds the refreshed access token (third log entry), and
the context owned by the caller — token, config and api_key alike — is unchanged:
`do_request` borrows it immutably and `renew_token` mutates only
`self.token.clone()`. -/
theorem C3_retry_uses_renewed_token
    (fuel : Nat) (ctx : Ctx) (t nt : Token) (path method : String) (param : J)
    (slot : ParamSlot) (r1 r2 r3 : SResp) (e1 e2 e3 : Response)
    (hslot : placeParams method param = some slot)
    (hkey : ctx.api_key = none) (htok : ctx.token = some t)
    (hcid : ¬ t.client_id = "") (href : ¬ t.refresh_token = "")
    (h1 : r1.envelope = some e1)
    (h1tok : e1.token = some "invalid_request_token")
    (h1ex : e1.extra = some "token_expired")
    (h2 : r2.envelope = some e2)
    (h2r : ¬ e2.result = "redirect") (h2e : ¬ e2.result = "error")
    (h2t : applyToken e2 = some nt)
    (h3 : r3.envelope = some e3)
    (h3n : ¬ (e3.token = some "invalid_request_token" ∧ e3.extra = some "token_expired"))
    (h3r : ¬ e3.result = "redirect") (h3e : ¬ e3.result = "error") :
    doRequest (fuel + 2) ctx path method param [r1, r2, r3] =
      ⟨.ok { e3 with request_id := r3.reqId }, [],
       [⟨path, method, some t.access_token, slot⟩,
        ⟨"OAuth2:token", "POST", none, .body (refreshParams t)⟩,
        ⟨path, method, some nt.access_token, slot⟩]⟩ ∧
    ctxAfterDoRequest ctx = ctx := by
  refine ⟨?_, rfl⟩
  have h2t' : (match e2.data with | some d => tokenFromJson d | none => none) = some nt := h2t
  simp only [doRequest, hslot, hkey, htok, h1, h2, dispatch]
  simp [hslot, h1tok, h1ex, hcid, href, h2r, h2e, h2t', h3, h3n, h3r, h3e, dispatch,
    refreshParams, placeParams_post]
  rw [show applyToken { e2 with request_id := r2.reqId } = some nt from h2t]

/-- Witness for C3 (amended) on the concrete expiry-refresh-success script. -/
theorem C3_witness :
    placeParams "GET" (J.obj []) = some (.query (J.obj [])) ∧
    cexCtx.api_key = none ∧
    cexCtx.token = some cexToken ∧
    ¬ cexToken.client_id = "" ∧
    ¬ cexToken.refresh_token = "" ∧
    applyToken refreshEnv = some renewedToken ∧
    doRequest 10 cexCtx "Test/Endpoint" "GET" (J.obj [])
        [expiredResp, refreshOkResp, finalOkResp] =
      ⟨.ok { finalEnv with request_id := none }, [],
       [⟨"Test/Endpoint", "GET", some "acc", .query (J.obj [])⟩,
        ⟨"OAuth2:token", "POST", none, .body (refreshParams cexToken)⟩,
        ⟨"Test/Endpoint", "GET", some "newacc", .query (J.obj [])⟩]⟩ ∧
    ctxAfterDoRequest cexCtx = cexCtx := by
  refine ⟨rfl, rfl, rfl, by decide, by decide, rfl, ?_, rfl⟩
  exact (C3_retry_uses_renewed_token 8 cexCtx cexToken renewedToken "Test/Endpoint" "GET"
    (J.obj []) (.query (J.obj [])) expiredResp refreshOkResp finalOkResp
    expiredEnv refreshEnv finalEnv rfl rfl rfl (by decide) (by decide)
    rfl rfl rfl rfl (by decide) (by decide) rfl rfl (by decide) (by decide) (by decide)).1

/-- C5: when the response body fails to decode as a JSON envelope,
`do_request` raises an HTTP error carrying the numeric status and the raw
body exactly when the status is 4xx or 5xx, and raises a JSON error whenever
the status is 2xx; the two outcomes exclude each other. -/
theorem C5_decode_error_dispatch (fuel : Nat) (ctx : Ctx) (path method : String)
    (param : J) (slot : ParamSlot) (hslot : placeParams method param = some slot)
    (s : Nat) (raw : String) (rid : Option String) (rest : List SResp) :
    (((doRequest (fuel + 1) ctx path method param (⟨s, none, raw, rid⟩ :: rest)).result
        = .error (.http s raw)) ↔ ((400 ≤ s ∧ s ≤ 499) ∨ (500 ≤ s ∧ s ≤ 599))) ∧
    ((200 ≤ s ∧ s ≤ 299) →
      (doRequest (fuel + 1) ctx path method param (⟨s, none, raw, rid⟩ :: rest)).result
        = .error .json) := by
  have hrun : (doRequest (fuel + 1) ctx path method param (⟨s, none, raw, rid⟩ :: rest)).result
      = if (400 ≤ s ∧ s ≤ 499) ∨ (500 ≤ s ∧ s ≤ 599) then Except.error (.http s raw)
        else Except.error .json := by
    simp only [doRequest, hslot]
    split <;> rfl
  rw [hrun]
  constructor
  · by_cases hC : (400 ≤ s ∧ s ≤ 499) ∨ (500 ≤ s ∧ s ≤ 599)
    · simp [hC]
    · simp [hC]
  · intro h2xx
    rw [if_neg (by omega)]

/-- Witness for C5 at a 404 with an undecodable body. -/
theorem C5_witness :
    placeParams "GET" (J.obj []) = some (.query (J.obj [])) ∧
    ((((doRequest 1 {} "Test/Endpoint" "GET" (J.obj []) [⟨404, none, "nf", none⟩]).result
        = .error (.http 404 "nf")) ↔ ((400 ≤ 404 ∧ 404 ≤ 499) ∨ (500 ≤ 404 ∧ 404 ≤ 599))) ∧
      ((200 ≤ 404 ∧ 404 ≤ 299) →
        (doRequest 1 {} "Test/Endpoint" "GET" (J.obj []) [⟨404, none, "nf", none⟩]).result
          = .error .json)) :=
  ⟨rfl, C5_decode_error_dispatch 0 {} "Test/Endpoint" "GET" (J.obj [])
    (.query (J.obj [])) rfl 404 "nf" none []⟩

/-! The upload orchestrator (src/upload.rs).  The reader is a byte list; the
HTTP outcomes of the part PUTs are an oracle `st : Nat → Nat` giving each
response status of each part.  Each strategy produces a trace of events — reads,
part PUTs and their returns, progress reports, the S3 init and finalize
calls, and the `Complete` call — plus an optional error.  The Rust producer
loops never spawn a thread: `upload_part` / `aws_upload_part` are plain
synchronous calls, so the loops are translated as sequential recursion; the
`NumeralWaitGroup` count is 0 at every loop head and its waits never block.
A successful S3 part is assumed to carry its `ETag` header (a missing `ETag`
aborts exactly like a failed PUT and is not modelled separately). -/

/-- The upload state (`UploadInfo`, src/upload.rs lines 20-47), restricted to
the fields that drive strategy selection. -/
structure UploadInfo where
  put : String
  complete : String
  max_part_size : Int := 1024
  parallel_uploads : Nat := 3
  blocksize : Option Int := none
  aws_id : Option String := none
  aws_key : Option String := none
  aws_region : Option String := none
  aws_name : Option String := none
  aws_host : Option String := none

def reqStr (req : List (String × J)) (k : String) : Option String :=
  (jlookup k req).bind J.asStr

def reqNum (req : List (String × J)) (k : String) : Option Int :=
  (jlookup k req).bind J.asNum

def reqObj (req : List (String × J)) (k : String) : Option (List (String × J)) :=
  (jlookup k req).bind J.asObj

/-- `UploadInfo::prepare` (src/upload.rs lines 152-208): `PUT` and `Complete`
are required strings; a numeric `Blocksize` selects the block strategy and
returns early, ignoring any AWS fields; otherwise the five AWS fields are
accepted all-or-nothing. -/
def prepare (req : List (String × J)) : Except String UploadInfo :=
  match reqStr req "PUT" with
  | none => .error "Missing PUT parameter"
  | some putUrl =>
    match reqStr req "Complete" with
    | none => .error "Missing Complete parameter"
    | some completePath =>
      let base : UploadInfo := { put := putUrl, complete := completePath }
      match reqNum req "Blocksize" with
      | some bs => .ok { base with blocksize := some bs }
      | none =>
        match reqStr req "Cloud_Aws_Bucket_Upload__", reqObj req "Bucket_Endpoint" with
        | some awsId, some bucket =>
          match reqStr req "Key", (jlookup "Region" bucket).bind J.asStr,
              (jlookup "Name" bucket).bind J.asStr, (jlookup "Host" bucket).bind J.asStr with
          | some key, some region, some bname, some bhost =>
            .ok { base with
                  aws_id := some awsId
                  aws_key := some key
                  aws_region := some region
                  aws_name := some bname
                  aws_host := some bhost }
          | _, _, _, _ => .ok base
        | _, _ => .ok base

/-- Whether `prepare` accepts the whole AWS field group from the request. -/
def awsAccepted (req : List (String × J)) : Bool :=
  (reqStr req "Cloud_Aws_Bucket_Upload__").isSome &&
    (match reqObj req "Bucket_Endpoint" with
     | some bucket =>
       (reqStr req "Key").isSome &&
         ((jlookup "Region" bucket).bind J.asStr).isSome &&
         ((jlookup "Name" bucket).bind J.asStr).isSome &&
         ((jlookup "Host" bucket).bind J.asStr).isSome
     | none => false)

inductive Strategy where
  | block
  | s3
  | put

/-- The strategy dispatch of `UploadInfo::do_upload` (src/upload.rs lines
232-243): a present `blocksize` wins, then a present AWS id with unknown
size or size above 64 MiB selects S3, and everything else is a single PUT. -/
def selectStrategy (u : UploadInfo) (file_size : Option Int) : Strategy :=
  match u.blocksize with
  | some _ => .block
  | none =>
    match u.aws_id with
    | some _ =>
      match file_size with
      | none => .s3
      | some n => if n > 64 * 1024 * 1024 then .s3 else .put
    | none => .put

/-- Observable upload events: the zero start report, the single PUT, progress
deltas, per-part reads/PUTs/returns/progress, the S3 init and finalize, and
the `Complete` call. -/
inductive Ev where
  | progressStart
  | httpPut (bytes : Nat)
  | progressDelta (n : Int)
  | readPart (part : Nat) (bytes : Nat)
  | putPart (part : Nat) (bytes : Nat)
  | putDone (part : Nat) (ok : Bool)
  | progressPart (part : Nat) (delta : Nat)
  | awsInit
  | finalize
  | completeCall

/-- Upload-side errors (src/error.rs as used by src/upload.rs). -/
inductive UpErr where
  | other (msg : String)
  | http (status : Nat)
  | fuelOut

/-- `reqwest::StatusCode::is_success` for the part with number `n`. -/
def partOk (st : Nat → Nat) (n : Nat) : Bool := decide (200 ≤ st n ∧ st n ≤ 299)

/-- `UploadInfo::put_upload` (src/upload.rs lines 247-287): requires a known
size of at most 5 GiB, else fails with an *other* error before any HTTP
request; otherwise one PUT of the whole reader, an HTTP error on non-2xx, a
single progress report equal to `size` and the `Complete` call on success. -/
def put_upload (file_size : Option Int) (input : List Nat) (putStatus : Nat) :
    List Ev × Option UpErr :=
  match file_size with
  | none => ([], some (.other "File size required for PUT upload"))
  | some size =>
    if size > 5 * 1024 * 1024 * 1024 then
      ([], some (.other "File too large for PUT upload (>5GB)"))
    else
      if 200 ≤ putStatus ∧ putStatus ≤ 299 then
        ([.httpPut input.length, .progressDelta size, .completeCall], none)
      else ([.httpPut input.length], some (.http putStatus))

/-- The producer loop of `UploadInfo::part_upload` (src/upload.rs lines
296-335): spool up to `blocksize` bytes (a non-positive blocksize spools
nothing), stop before uploading when the read is empty, upload the part
synchronously (`upload_part`, lines 342-380: PUT, then error on non-2xx,
else a progress report), and stop after a short part.  The fuel argument
only bounds the recursion; `input.length + 2` always suffices. -/
def blockGo (st : Nat → Nat) (bs : Int) : Nat → List Nat → Nat → List Ev × Option UpErr
  | 0, _, _ => ([], some .fuelOut)
  | fu + 1, input, partNo =>
    let chunk := input.take bs.toNat
    if chunk.length = 0 then ([], none)
    else
      let evs := [Ev.readPart partNo chunk.length, Ev.putPart partNo chunk.length,
                  Ev.putDone partNo (partOk st partNo)]
      if partOk st partNo = false then (evs, some (.http (st partNo)))
      else
        let evs := evs ++ [Ev.progressPart partNo chunk.length]
        if (chunk.length : Int) < bs then (evs, none)
        else
          let next := blockGo st bs fu (input.drop bs.toNat) (partNo + 1)
          (evs ++ next.1, next.2)

/-- `UploadInfo::part_upload` wrapped up: the loop from part 1, then the
`Complete` call once all uploads drained. -/
def part_upload (st : Nat → Nat) (bs : Int) (input : List Nat) :
    List Ev × Option UpErr :=
  let out := blockGo st bs (input.length + 2) input 1
  match out.2 with
  | some e => (out.1, some e)
  | none => (out.1 ++ [Ev.completeCall], none)

/-- The producer loop of `UploadInfo::aws_upload` (src/upload.rs lines
404-441): identical to the block loop except that an empty read breaks only
when the part number differs from 1, so part 1 may be uploaded empty
(`aws_upload_part`, lines 453-483). -/
def awsGo (st : Nat → Nat) (mb : Int) : Nat → List Nat → Nat → List Ev × Option UpErr
  | 0, _, _ => ([], some .fuelOut)
  | fu + 1, input, partNo =>
    let chunk := input.take mb.toNat
    if chunk.length = 0 ∧ partNo ≠ 1 then ([], none)
    else
      let evs := [Ev.readPart partNo chunk.length, Ev.putPart partNo chunk.length,
                  Ev.putDone partNo (partOk st partNo)]
      if partOk st partNo = false then (evs, some (.http (st partNo)))
      else
        let evs := evs ++ [Ev.progressPart partNo chunk.length]
        if (chunk.length : Int) < mb then (evs, none)
        else
          let next := awsGo st mb fu (input.drop mb.toNat) (partNo + 1)
          (evs ++ next.1, next.2)

/-- The S3 strategy around its producer loop: init, loop from part 1,
finalize, `Complete`. -/
def awsStrategyRun (st : Nat → Nat) (mb : Int) (input : List Nat) :
    List Ev × Option UpErr :=
  let out := awsGo st mb (input.length + 2) input 1
  match out.2 with
  | some e => (Ev.awsInit :: out.1, some e)
  | none => (Ev.awsInit :: out.1 ++ [Ev.finalize, Ev.completeCall], none)

/-- `UploadInfo::aws_upload` (src/upload.rs lines 383-450): the 5 TiB guard
and the part-size policy (`max(size / (10000 * 1024 * 1024), 5)` MiB when the
size is known, the default 1024 MiB otherwise), then the strategy run. -/
def aws_upload (st : Nat → Nat) (file_size : Option Int) (input : List Nat) :
    List Ev × Option UpErr :=
  match file_size with
  | some size =>
    if size > 5 * 1024 * 1024 * 1024 * 1024 then
      ([], some (.other "File exceeds AWS S3 5TB limit"))
    else awsStrategyRun st (max (size / (10000 * 1024 * 1024)) 5 * 1024 * 1024) input
  | none => awsStrategyRun st (1024 * 1024 * 1024) input

/-- `UploadInfo::do_upload` (src/upload.rs lines 223-244): report progress 0,
then run the selected strategy. -/
def do_upload (u : UploadInfo) (st : Nat → Nat) (putStatus : Nat)
    (file_size : Option Int) (input : List Nat) : List Ev × Option UpErr :=
  let out :=
    match selectStrategy u file_size with
    | .block => part_upload st (u.blocksize.getD 0) input
    | .s3 => aws_upload st file_size input
    | .put => put_upload file_size input putStatus
  (Ev.progressStart :: out.1, out.2)

/-- Sum of all progress deltas reported along a trace. -/
def sumDeltas : List Ev → Int
  | [] => 0
  | .progressStart :: t => 0 + sumDeltas t
  | .progressDelta n :: t => n + sumDeltas t
  | .progressPart _ k :: t => (k : Int) + sumDeltas t
  | _ :: t => sumDeltas t

/-- Number of `Complete` calls in a trace. -/
def countComplete : List Ev → Nat
  | [] => 0
  | .completeCall :: t => 1 + countComplete t
  | _ :: t => countComplete t

/-- C4: for every upload plan and optional size, the strategy dispatch obeys:
a numeric `Blocksize` selects the block strategy (the AWS fields never having
been accepted, they are ignored even when present); otherwise, when all AWS
fields were accepted at prepare time and the size is unknown or strictly
above 64 MiB, the S3 strategy runs; in every other case the single PUT
strategy runs. -/
theorem C4_strategy_selection (req : List (String × J)) (u : UploadInfo)
    (file_size : Option Int) (h : prepare req = .ok u) :
    ((reqNum req "Blocksize").isSome → selectStrategy u file_size = .block) ∧
    (reqNum req "Blocksize" = none → awsAccepted req = true →
      (file_size = none ∨ (∃ n, file_size = some n ∧ n > 64 * 1024 * 1024)) →
      selectStrategy u file_size = .s3) ∧
    (reqNum req "Blocksize" = none → awsAccepted req = true →
      (∃ n, file_size = some n ∧ ¬ n > 64 * 1024 * 1024) →
      selectStrategy u file_size = .put) ∧
    (reqNum req "Blocksize" = none → awsAccepted req = false →
      selectStrategy u file_size = .put) := by
  unfold prepare at h
  rcases hP : reqStr req "PUT" with _ | putUrl
  · simp only [hP] at h; simp at h
  simp only [hP] at h
  rcases hC : reqStr req "Complete" with _ | completePath
  · simp only [hC] at h; simp at h
  simp only [hC] at h
  rcases hB : reqNum req "Blocksize" with _ | bs
  case some =>
    simp only [hB] at h
    simp only [Except.ok.injEq] at h
    subst h
    refine ⟨fun _ => rfl, ?_, ?_, ?_⟩ <;> intro hn <;> simp at hn
  simp only [hB] at h
  rcases hA : reqStr req "Cloud_Aws_Bucket_Upload__" with _ | awsId
  · simp only [hA] at h
    simp only [Except.ok.injEq] at h
    subst h
    refine ⟨?_, ?_, fun _ _ _ => rfl, fun _ _ => rfl⟩
    · intro hn; simp at hn
    · intro _ hacc _; simp [awsAccepted, hA] at hacc
  simp only [hA] at h
  rcases hBkt : reqObj req "Bucket_Endpoint" with _ | bucket
  · simp only [hBkt] at h
    simp only [Except.ok.injEq] at h
    subst h
    refine ⟨?_, ?_, fun _ _ _ => rfl, fun _ _ => rfl⟩
    · intro hn; simp at hn
    · intro _ hacc _; simp [awsAccepted, hA, hBkt] at hacc
  simp only [hBkt] at h
  rcases hKey : reqStr req "Key" with _ | key
  · simp only [hKey] at h
    simp only [Except.ok.injEq] at h
    subst h
    refine ⟨?_, ?_, fun _ _ _ => rfl, fun _ _ => rfl⟩
    · intro hn; simp at hn
    · intro _ hacc _; simp [awsAccepted, hA, hBkt, hKey] at hacc
  simp only [hKey] at h
  rcases hReg : (jlookup "Region" bucket).bind J.asStr with _ | region
  · simp only [hReg] at h
    simp only [Except.ok.injEq] at h
    subst h
    refine ⟨?_, ?_, fun _ _ _ => rfl, fun _ _ => rfl⟩
    · intro hn; simp at hn
    · intro _ hacc _; simp [awsAccepted, hA, hBkt, hKey, hReg] at hacc
  simp only [hReg] at h
  rcases hNam : (jlookup "Name" bucket).bind J.asStr with _ | bname
  · simp only [hNam] at h
    simp only [Except.ok.injEq] at h
    subst h
    refine ⟨?_, ?_, fun _ _ _ => rfl, fun _ _ => rfl⟩
    · intro hn; simp at hn
    · intro _ hacc _; simp [awsAccepted, hA, hBkt, hKey, hReg, hNam] at hacc
  simp only [hNam] at h
  rcases hHost : (jlookup "Host" bucket).bind J.asStr with _ | bhost
  · simp only [hHost] at h
    simp only [Except.ok.injEq] at h
    subst h
    refine ⟨?_, ?_, fun _ _ _ => rfl, fun _ _ => rfl⟩
    · intro hn; simp at hn
    · intro _ hacc _; simp [awsAccepted, hA, hBkt, hKey, hReg, hNam, hHost] at hacc
  simp only [hHost] at h
  simp only [Except.ok.injEq] at h
  subst h
  refine ⟨?_, ?_, ?_, ?_⟩
  · intro hn; simp at hn
  · rintro _ _ (hfs | ⟨n, hfs, hbig⟩)
    · simp [selectStrategy, hfs]
    · simp only [selectStrategy, hfs]
      rw [if_pos (by omega)]
  · rintro _ _ ⟨n, hfs, hsmall⟩
    simp only [selectStrategy, hfs]
    rw [if_neg (by omega)]
  · intro _ hacc
    simp [awsAccepted, hA, hBkt, hKey, hReg, hNam, hHost] at hacc

/-- Witness for C4 at a plan carrying both `Blocksize` and all AWS fields:
the block strategy runs. -/
theorem C4_witness :
    prepare [("PUT", J.str "u"), ("Complete", J.str "c"), ("Blocksize", J.num 256),
        ("Cloud_Aws_Bucket_Upload__", J.str "aws1"), ("Key", J.str "k"),
        ("Bucket_Endpoint", J.obj [("Region", J.str "r"), ("Name", J.str "n"),
          ("Host", J.str "h")])] =
      .ok { put := "u", complete := "c", blocksize := some 256 } ∧
    (reqNum [("PUT", J.str "u"), ("Complete", J.str "c"), ("Blocksize", J.num 256),
        ("Cloud_Aws_Bucket_Upload__", J.str "aws1"), ("Key", J.str "k"),
        ("Bucket_Endpoint", J.obj [("Region", J.str "r"), ("Name", J.str "n"),
          ("Host", J.str "h")])] "Blocksize").isSome ∧
    selectStrategy { put := "u", complete := "c", blocksize := some 256 } (some 1024)
      = .block :=
  ⟨rfl, rfl,
    (C4_strategy_selection
      [("PUT", J.str "u"), ("Complete", J.str "c"), ("Blocksize", J.num 256),
        ("Cloud_Aws_Bucket_Upload__", J.str "aws1"), ("Key", J.str "k"),
        ("Bucket_Endpoint", J.obj [("Region", J.str "r"), ("Name", J.str "n"),
          ("Host", J.str "h")])]
      { put := "u", complete := "c", blocksize := some 256 } (some 1024) rfl).1 rfl⟩

/-- C6: on the single-PUT path (no blocksize, no AWS id), an unknown size
fails with the *other* error "File size required for PUT upload" and a size
above 5 GiB with the *other* error "File too large for PUT upload (>5GB)",
in both cases before any HTTP request — the whole run trace is the zero
start report alone; and for a known size `L` within the limit whose PUT
returns 2xx, the trace is exactly the start report, the PUT, one delta of
`L`, and the `Complete` call, so the progress deltas sum to `L` and
`Complete` is called exactly once, after the PUT. -/
theorem C6_put_upload (u : UploadInfo) (st : Nat → Nat) (putStatus : Nat)
    (file_size : Option Int) (input : List Nat)
    (hb : u.blocksize = none) (ha : u.aws_id = none) :
    (file_size = none →
      do_upload u st putStatus file_size input =
        ([.progressStart], some (.other "File size required for PUT upload"))) ∧
    (∀ L, file_size = some L → L > 5 * 1024 * 1024 * 1024 →
      do_upload u st putStatus file_size input =
        ([.progressStart], some (.other "File too large for PUT upload (>5GB)"))) ∧
    (∀ L, file_size = some L → ¬ L > 5 * 1024 * 1024 * 1024 →
      200 ≤ putStatus → putStatus ≤ 299 →
      (do_upload u st putStatus file_size input).1 =
        [.progressStart, .httpPut input.length, .progressDelta L, .completeCall] ∧
      sumDeltas (do_upload u st putStatus file_size input).1 = L ∧
      countComplete (do_upload u st putStatus file_size input).1 = 1) := by
  have hsel : selectStrategy u file_size = .put := by simp [selectStrategy, hb, ha]
  refine ⟨?_, ?_, ?_⟩
  · intro hfs
    rw [hfs] at hsel
    simp [do_upload, hsel, put_upload, hfs]
  · intro L hfs hbig
    rw [hfs] at hsel
    simp only [do_upload, hsel, put_upload, hfs]
    rw [if_pos (by omega)]
  · intro L hfs hsmall h1 h2
    rw [hfs] at hsel
    simp only [do_upload, hsel, put_upload, hfs]
    rw [if_neg (by omega), if_pos ⟨h1, h2⟩]
    refine ⟨rfl, by simp [sumDeltas], by simp [countComplete]⟩

/-- Witness for C6 at a four-byte reader of known size 4 with a 200 PUT. -/
theorem C6_witness :
    ({ put := "u", complete := "c" } : UploadInfo).blocksize = none ∧
    ({ put := "u", complete := "c" } : UploadInfo).aws_id = none ∧
    (((some 4 : Option Int) = none →
      do_upload { put := "u", complete := "c" } (fun _ => 200) 200 (some 4) [9, 9, 9, 9] =
        ([.progressStart], some (.other "File size required for PUT upload"))) ∧
    (∀ L, (some 4 : Option Int) = some L → L > 5 * 1024 * 1024 * 1024 →
      do_upload { put := "u", complete := "c" } (fun _ => 200) 200 (some 4) [9, 9, 9, 9] =
        ([.progressStart], some (.other "File too large for PUT upload (>5GB)"))) ∧
    (∀ L, (some 4 : Option Int) = some L → ¬ L > 5 * 1024 * 1024 * 1024 →
      200 ≤ 200 → 200 ≤ 299 →
      (do_upload { put := "u", complete := "c" } (fun _ => 200) 200 (some 4)
          [9, 9, 9, 9]).1 =
        [.progressStart, .httpPut ([9, 9, 9, 9] : List Nat).length, .progressDelta L,
          .completeCall] ∧
      sumDeltas (do_upload { put := "u", complete := "c" } (fun _ => 200) 200 (some 4)
          [9, 9, 9, 9]).1 = L ∧
      countComplete (do_upload { put := "u", complete := "c" } (fun _ => 200) 200 (some 4)
          [9, 9, 9, 9]).1 = 1)) :=
  ⟨rfl, rfl, C6_put_upload { put := "u", complete := "c" } (fun _ => 200) 200 (some 4)
    [9, 9, 9, 9] rfl rfl⟩

/-- In the S3 producer loop started at a part number of at least 2, no
zero-length part is ever uploaded: an empty read there breaks out before the
upload. -/
theorem awsGo_no_empty_late (st : Nat → Nat) (mb : Int) :
    ∀ (fu : Nat) (input : List Nat) (p : Nat), 2 ≤ p →
      ∀ n, Ev.putPart n 0 ∉ (awsGo st mb fu input p).1 := by
  intro fu
  induction fu with
  | zero => intro input p hp n hmem; simp [awsGo] at hmem
  | succ fu ih =>
    intro input p hp n hmem
    simp only [awsGo] at hmem
    by_cases h0 : (input.take mb.toNat).length = 0 ∧ p ≠ 1
    · rw [if_pos h0] at hmem
      simp at hmem
    · rw [if_neg h0] at hmem
      have hne : (input.take mb.toNat).length ≠ 0 := fun hl => h0 ⟨hl, by omega⟩
      simp only [List.length_take] at hne
      by_cases hok : partOk st p = false
      · rw [if_pos hok] at hmem
        simp at hmem
        exact hne hmem.2.symm
      · rw [if_neg hok] at hmem
        by_cases hlt : ((input.take mb.toNat).length : Int) < mb
        · rw [if_pos hlt] at hmem
          simp at hmem
          exact hne hmem.2.symm
        · rw [if_neg hlt] at hmem
          simp at hmem
          rcases hmem with ⟨_, hlen⟩ | htail
          · exact hne hlen.symm
          · exact ih _ (p + 1) (by omega) n htail

/-- In the S3 producer loop started at part 1, a zero-length upload can only
be part 1 itself. -/
theorem awsGo_empty_only_first (st : Nat → Nat) (mb : Int) :
    ∀ (fu : Nat) (input : List Nat) (n : Nat),
      Ev.putPart n 0 ∈ (awsGo st mb fu input 1).1 → n = 1 := by
  intro fu input n hmem
  cases fu with
  | zero => simp [awsGo] at hmem
  | succ fu =>
    simp only [awsGo] at hmem
    rw [if_neg (by simp)] at hmem
    by_cases hok : partOk st 1 = false
    · rw [if_pos hok] at hmem
      simp at hmem
      exact hmem.1
    · rw [if_neg hok] at hmem
      by_cases hlt : ((input.take mb.toNat).length : Int) < mb
      · rw [if_pos hlt] at hmem
        simp at hmem
        exact hmem.1
      · rw [if_neg hlt] at hmem
        simp at hmem
        rcases hmem with ⟨hn, _⟩ | htail
        · exact hn
        · exact absurd htail (awsGo_no_empty_late st mb _ _ 2 (by omega) n)

/-- C9: in the S3 multipart strategy, a reader that yields zero bytes on the
first read still causes exactly one part — part number 1, zero length — to
be uploaded before finalization (the run trace is exactly init, the empty
part-1 block, finalize, `Complete`); whereas for every part number above 1 a
zero-byte read terminates the producer loop without uploading that part, so
no zero-length part other than part 1 ever appears in any run. -/
theorem C9_aws_first_part (st : Nat → Nat) (mb : Int) (input : List Nat)
    (h1 : partOk st 1 = true) :
    awsStrategyRun st mb [] =
      ([.awsInit, .readPart 1 0, .putPart 1 0, .putDone 1 true, .progressPart 1 0,
        .finalize, .completeCall], none) ∧
    (∀ n, Ev.putPart n 0 ∈ (awsStrategyRun st mb input).1 → n = 1) := by
  constructor
  · have hgo : awsGo st mb 2 [] 1 =
        ([.readPart 1 0, .putPart 1 0, .putDone 1 true, .progressPart 1 0], none) := by
      rcases lt_or_le 0 mb with hmb | hmb
      · simp [awsGo, h1, hmb]
      · simp [awsGo, h1, not_lt.mpr hmb]
    simp [awsStrategyRun, hgo]
  · intro n hmem
    have hin : Ev.putPart n 0 ∈ (awsGo st mb (input.length + 2) input 1).1 := by
      simp only [awsStrategyRun] at hmem
      split at hmem
      · simpa using hmem
      · simpa using hmem
    exact awsGo_empty_only_first st mb _ input n hin

/-- The sequential per-part shape of a producer-loop trace, starting at part
`n`: each part contributes its spool read, its PUT, and the PUT return, in
that order and with nothing interleaved; a failed PUT ends the trace at that
part with no progress report; a successful PUT reports its progress delta
before anything of part `n + 1` happens; part numbers ascend one by one. -/
inductive SeqRun (ok : Nat → Bool) : Nat → List Ev → Prop where
  | done (n : Nat) : SeqRun ok n []
  | fail (n k : Nat) (h : ok n = false) :
      SeqRun ok n [.readPart n k, .putPart n k, .putDone n false]
  | step (n k : Nat) (t : List Ev) (h : ok n = true) (ht : SeqRun ok (n + 1) t) :
      SeqRun ok n (.readPart n k :: .putPart n k :: .putDone n true :: .progressPart n k :: t)

theorem blockGo_seqRun (st : Nat → Nat) (bs : Int) :
    ∀ (fu : Nat) (input : List Nat) (p : Nat),
      SeqRun (partOk st) p (blockGo st bs fu input p).1 := by
  intro fu
  induction fu with
  | zero => intro input p; exact SeqRun.done p
  | succ fu ih =>
    intro input p
    simp only [blockGo]
    by_cases h0 : (input.take bs.toNat).length = 0
    · rw [if_pos h0]
      exact SeqRun.done p
    · rw [if_neg h0]
      by_cases hok : partOk st p = false
      · rw [if_pos hok, hok]
        exact SeqRun.fail p _ hok
      · have hok' : partOk st p = true := by
          revert hok
          cases partOk st p <;> simp
        rw [if_neg hok, hok']
        by_cases hlt : ((input.take bs.toNat).length : Int) < bs
        · rw [if_pos hlt]
          exact SeqRun.step p _ [] hok' (SeqRun.done (p + 1))
        · rw [if_neg hlt]
          exact SeqRun.step p _ _ hok' (ih _ (p + 1))

theorem awsGo_seqRun (st : Nat → Nat) (mb : Int) :
    ∀ (fu : Nat) (input : List Nat) (p : Nat),
      SeqRun (partOk st) p (awsGo st mb fu input p).1 := by
  intro fu
  induction fu with
  | zero => intro input p; exact SeqRun.done p
  | succ fu ih =>
    intro input p
    simp only [awsGo]
    by_cases h0 : (input.take mb.toNat).length = 0 ∧ p ≠ 1
    · rw [if_pos h0]
      exact SeqRun.done p
    · rw [if_neg h0]
      by_cases hok : partOk st p = false
      · rw [if_pos hok, hok]
        exact SeqRun.fail p _ hok
      · have hok' : partOk st p = true := by
          revert hok
          cases partOk st p <;> simp
        rw [if_neg hok, hok']
        by_cases hlt : ((input.take mb.toNat).length : Int) < mb
        · rw [if_pos hlt]
          exact SeqRun.step p _ [] hok' (SeqRun.done (p + 1))
        · rw [if_neg hlt]
          exact SeqRun.step p _ _ hok' (ih _ (p + 1))

/-- C10: both producer loops — block strategy and S3 strategy alike —
execute their part uploads synchronously: the trace from part 1 always has
the sequential shape `SeqRun`, in which the PUT of part `N` returns (with success
or failure) before any byte of part `N + 1` is read, at most one part upload
is ever in flight, and the progress deltas of distinct parts appear in
strictly ascending part-number order. -/
theorem C10_sequential_parts (st : Nat → Nat) (bs mb : Int) (fu1 fu2 : Nat)
    (input1 input2 : List Nat) :
    SeqRun (partOk st) 1 (blockGo st bs fu1 input1 1).1 ∧
    SeqRun (partOk st) 1 (awsGo st mb fu2 input2 1).1 :=
  ⟨blockGo_seqRun st bs fu1 input1 1, awsGo_seqRun st mb fu2 input2 1⟩

/-- Witness for C9 with every part succeeding and a positive part size. -/
theorem C9_witness :
    partOk (fun _ => 200) 1 = true ∧
    awsStrategyRun (fun _ => 200) 5 [] =
      ([.awsInit, .readPart 1 0, .putPart 1 0, .putDone 1 true, .progressPart 1 0,
        .finalize, .completeCall], none) ∧
    (∀ n, Ev.putPart n 0 ∈ (awsStrategyRun (fun _ => 200) 5 [7, 7]).1 → n = 1) :=
  ⟨rfl, (C9_aws_first_part (fun _ => 200) 5 [7, 7] rfl).1,
    (C9_aws_first_part (fun _ => 200) 5 [7, 7] rfl).2⟩

end Klbfw
